import Mathlib

/-!
Shallow embedding of the Xpostv2 single-page application core
(`src/index.tsx`): the settings draft/commit lifecycle, the source and
schedule-time list operations, the bounded history ledger, and the
post-generation handler `handleGeneratePost`.

Conventions of the embedding:
* React `useState` / `useLocalStorage` cells become fields of an explicit
  `AppState` record; a handler becomes a function `AppState → AppState`
  (all `setX` calls of one handler are folded into one record update,
  matching the batched state React delivers after the handler runs).
* `localStorage` writes performed by `setSavedSettings` are modelled by
  the `persistedSettings` field.
* The external generative API call is modelled by an `ApiResponse`
  argument (`ok` with the optional `response.text`, or `err` for a raised
  error); whether the handler reached the API call is reported in the
  `apiCalled` flag of its result.
* `Math.floor(Math.random() * len)` is an arbitrary index below `len`;
  the handler takes `k : Nat` and uses `k % len`, which ranges over
  exactly the indices `0 … len-1`.
* JavaScript `Array.prototype.sort()` on strings (lexicographic by code
  unit) is modelled by `List.insertionSort (· ≤ ·)` over the lexicographic
  order of `String`: on the lists at hand the sorted rearrangement is
  unique, so any correct sort denotes the same function.
-/

/-- The settings record, `initialSettings` shape of `src/index.tsx` lines 31-40. -/
structure Settings where
  persona : String
  sources : List String
  scheduleTimes : List String
  postsPerDay : Nat
  xApiKey : String
  xApiSecretKey : String
  xAccessToken : String
  xAccessTokenSecret : String
deriving DecidableEq, Repr

/-- `initialSettings` of `src/index.tsx` lines 31-40. -/
def initialSettings : Settings :=
  { persona := "あなたは鋭い洞察力を持つテクノロジー専門家です。"
    sources := []
    scheduleTimes := ["09:00"]
    postsPerDay := 10
    xApiKey := ""
    xApiSecretKey := ""
    xAccessToken := ""
    xAccessTokenSecret := "" }

/-- A generated post, the `generatedPost` state shape (`{ text, source }`). -/
structure GeneratedPost where
  text : String
  source : String
deriving DecidableEq, Repr

/-- A history entry: a generated post plus the locale-formatted date string. -/
structure HistoryEntry where
  text : String
  source : String
  date : String
deriving DecidableEq, Repr

/-- `addSource` (`src/index.tsx` lines 82-87) at the level of the source
list: append `sourceInput` at the end when it is non-empty and not already
present, otherwise do nothing. -/
def addSource (sourceInput : String) (sources : List String) : List String :=
  if sourceInput ≠ "" ∧ sourceInput ∉ sources then sources ++ [sourceInput] else sources

/-- `removeSource` (`src/index.tsx` lines 89-91):
`sources.filter((_, i) => i !== index)`. The index is an `Int` since a
JavaScript caller may pass any number. -/
def removeSource (index : Int) (sources : List String) : List String :=
  (sources.enum.filter (fun p => ((p.1 : Int) != index))).map Prod.snd

/-- JavaScript `Array.prototype.sort()` on a string array: the
lexicographically sorted rearrangement. -/
def sortStrings (l : List String) : List String :=
  l.insertionSort (· ≤ ·)

/-- `addScheduleTime` (`src/index.tsx` lines 93-98) at the level of the
schedule-time list: `[...scheduleTimes, timeInput].sort()` when `timeInput`
is non-empty and not already present, otherwise do nothing. -/
def addScheduleTime (timeInput : String) (scheduleTimes : List String) : List String :=
  if timeInput ≠ "" ∧ timeInput ∉ scheduleTimes then sortStrings (scheduleTimes ++ [timeInput])
  else scheduleTimes

/-- `removeScheduleTime` (`src/index.tsx` lines 100-102):
`scheduleTimes.filter((_, i) => i !== index)`. -/
def removeScheduleTime (index : Int) (scheduleTimes : List String) : List String :=
  (scheduleTimes.enum.filter (fun p => ((p.1 : Int) != index))).map Prod.snd

/-- One call to `handleSettingsChange(field, value)` (`src/index.tsx`
lines 78-80): the field name together with the new value. -/
inductive SettingsEdit where
  | persona (v : String)
  | sources (v : List String)
  | scheduleTimes (v : List String)
  | postsPerDay (v : Nat)
  | xApiKey (v : String)
  | xApiSecretKey (v : String)
  | xAccessToken (v : String)
  | xAccessTokenSecret (v : String)
deriving DecidableEq, Repr

/-- `handleSettingsChange` on the settings record:
`setSettings(prev => ({...prev, [field]: value}))`. -/
def handleSettingsChange (e : SettingsEdit) (s : Settings) : Settings :=
  match e with
  | .persona v => { s with persona := v }
  | .sources v => { s with sources := v }
  | .scheduleTimes v => { s with scheduleTimes := v }
  | .postsPerDay v => { s with postsPerDay := v }
  | .xApiKey v => { s with xApiKey := v }
  | .xApiSecretKey v => { s with xApiSecretKey := v }
  | .xAccessToken v => { s with xAccessToken := v }
  | .xAccessTokenSecret v => { s with xAccessTokenSecret := v }

/-- `areSettingsDirty` (`src/index.tsx` line 76):
`JSON.stringify(settings) !== JSON.stringify(savedSettings)`. Both objects
have the fixed `initialSettings` key order and JSON-faithful field types,
so stringify inequality is structural inequality. -/
def areSettingsDirty (settings savedSettings : Settings) : Bool :=
  decide (settings ≠ savedSettings)

/-- The mutable state of the `App` component that the claims concern. -/
structure AppState where
  savedSettings : Settings
  persistedSettings : Settings
  settings : Settings
  sourceInput : String
  timeInput : String
  generatedPost : Option GeneratedPost
  history : List HistoryEntry
  error : Option String
  isLoading : Bool
deriving DecidableEq, Repr

/-- `handleSaveSettings` (`src/index.tsx` lines 104-107):
`setSavedSettings(settings)`, which also writes the settings to
`localStorage`. -/
def handleSaveSettings (st : AppState) : AppState :=
  { st with savedSettings := st.settings, persistedSettings := st.settings }

/-- `handleResetSettings` (`src/index.tsx` lines 109-111):
`setSettings(savedSettings)`. -/
def handleResetSettings (st : AppState) : AppState :=
  { st with settings := st.savedSettings }

/-- A draft mutation of the settings, as performed by the view handlers
(`src/index.tsx` lines 78-102). `addSourceOp` / `addScheduleTimeOp` take
their argument from the `sourceInput` / `timeInput` text fields, as in the
code. -/
inductive DraftOp where
  | edit (e : SettingsEdit)
  | addSourceOp
  | removeSourceOp (index : Int)
  | addScheduleTimeOp
  | removeScheduleTimeOp (index : Int)
deriving DecidableEq, Repr

/-- Run one draft mutation on the component state (`src/index.tsx`
lines 78-102); the add operations clear their input field on success. -/
def applyDraftOp (op : DraftOp) (st : AppState) : AppState :=
  match op with
  | .edit e => { st with settings := handleSettingsChange e st.settings }
  | .addSourceOp =>
      if st.sourceInput ≠ "" ∧ st.sourceInput ∉ st.settings.sources then
        { st with
            settings := handleSettingsChange
              (.sources (st.settings.sources ++ [st.sourceInput])) st.settings
            sourceInput := "" }
      else st
  | .removeSourceOp index =>
      { st with
          settings := handleSettingsChange
            (.sources (removeSource index st.settings.sources)) st.settings }
  | .addScheduleTimeOp =>
      if st.timeInput ≠ "" ∧ st.timeInput ∉ st.settings.scheduleTimes then
        { st with
            settings := handleSettingsChange
              (.scheduleTimes (sortStrings (st.settings.scheduleTimes ++ [st.timeInput])))
              st.settings
            timeInput := "" }
      else st
  | .removeScheduleTimeOp index =>
      { st with
          settings := handleSettingsChange
            (.scheduleTimes (removeScheduleTime index st.settings.scheduleTimes)) st.settings }

/-- The outcome of the external generative API call inside the `try` block:
`ok` carries `response.text` (possibly absent), `err` an exception value. -/
inductive ApiResponse where
  | ok (text : Option String)
  | err (e : String)
deriving DecidableEq, Repr

/-- Error message of `src/index.tsx` line 115 (zero configured sources). -/
def noSourcesMessage : String := "少なくとも1つの情報ソースURLを登録してください。"

/-- Error message of `src/index.tsx` line 148 (empty response text). -/
def emptyResponseMessage : String := "AIから有効な応答がありませんでした。"

/-- Error message of `src/index.tsx` line 152 (caught API error). -/
def generationErrorMessage : String :=
  "投稿の生成中にエラーが発生しました。APIキーまたはプロンプトを確認してください。"

/-- The result of one `handleGeneratePost` run: the new component state and
whether the external generative API was invoked. -/
structure GenResult where
  state : AppState
  apiCalled : Bool
deriving DecidableEq, Repr

/-- `handleGeneratePost` (`src/index.tsx` lines 113-156). `k` chooses the
random source (`k % length` = `Math.floor(Math.random() * length)`),
`resp` is the API outcome, `now` the locale-formatted timestamp from
`new Date()`. -/
def handleGeneratePost (k : Nat) (resp : ApiResponse) (now : String) (st : AppState) :
    GenResult :=
  if st.savedSettings.sources.length = 0 then
    { state := { st with error := some noSourcesMessage }, apiCalled := false }
  else
    let st1 := { st with error := none, isLoading := true, generatedPost := none }
    match resp with
    | .err _ =>
        { state := { st1 with error := some generationErrorMessage, isLoading := false }
          apiCalled := true }
    | .ok t =>
        let randomSource :=
          st.savedSettings.sources.getD (k % st.savedSettings.sources.length) ""
        match t with
        | some text =>
            if text ≠ "" then
              let newPost : GeneratedPost := { text := text, source := randomSource }
              let newHistoryItem : HistoryEntry :=
                { text := text, source := randomSource, date := now }
              { state := { st1 with
                  generatedPost := some newPost
                  history := (newHistoryItem :: st.history).take 50
                  isLoading := false }
                apiCalled := true }
            else
              { state := { st1 with error := some emptyResponseMessage, isLoading := false }
                apiCalled := true }
        | none =>
            { state := { st1 with error := some emptyResponseMessage, isLoading := false }
              apiCalled := true }

/-- The history-ledger prepend of `src/index.tsx` line 146:
`[newHistoryItem, ...history].slice(0, 50)`. -/
def prependHistory (entry : HistoryEntry) (history : List HistoryEntry) : List HistoryEntry :=
  (entry :: history).take 50

/-- A sequence of source-list operations. -/
inductive SourceOp where
  | add (u : String)
  | remove (index : Int)
deriving DecidableEq, Repr

/-- Run one source-list operation. -/
def applySourceOp (l : List String) (op : SourceOp) : List String :=
  match op with
  | .add u => addSource u l
  | .remove index => removeSource index l

/-- Run a sequence of source-list operations, first operation first. -/
def applySourceOps (ops : List SourceOp) (l : List String) : List String :=
  ops.foldl applySourceOp l

/-- The URLs passed to the `add` operations of a sequence, in call order. -/
def addsOf : List SourceOp → List String
  | [] => []
  | .add u :: ops => u :: addsOf ops
  | .remove _ :: ops => addsOf ops

/-- Run a sequence of `addScheduleTime` calls, first call first. -/
def applyScheduleAdds (ts : List String) (l : List String) : List String :=
  ts.foldl (fun acc t => addScheduleTime t acc) l

/-- Run a sequence of successful generations against the history ledger,
oldest first. -/
def applyGenerations (entries : List HistoryEntry) (history : List HistoryEntry) :
    List HistoryEntry :=
  entries.foldl (fun acc e => prependHistory e acc) history

/-- A committed settings value with one registered source, for concrete runs. -/
def sampleCommitted : Settings :=
  { initialSettings with sources := ["https://a.example/feed"] }

/-- A concrete component state whose committed settings hold one source. -/
def sampleState : AppState :=
  { savedSettings := sampleCommitted
    persistedSettings := sampleCommitted
    settings := sampleCommitted
    sourceInput := ""
    timeInput := "12:00"
    generatedPost := none
    history := []
    error := none
    isLoading := false }

/-- A concrete component state whose committed settings hold no source. -/
def emptySourcesState : AppState :=
  { sampleState with savedSettings := initialSettings }

/-- Claim C1: with an empty committed source list, `handleGeneratePost` sets the
"no sources configured" error, performs no call to the generative API, and
leaves the history ledger unchanged in length and contents. -/
theorem generate_with_no_sources_fails_without_api_call
    (st : AppState) (k : Nat) (resp : ApiResponse) (now : String)
    (h : st.savedSettings.sources = []) :
    (handleGeneratePost k resp now st).apiCalled = false ∧
    (handleGeneratePost k resp now st).state.error = some noSourcesMessage ∧
    (handleGeneratePost k resp now st).state.history = st.history := by
  simp [handleGeneratePost, h]

/-- Witness for C1 at a concrete state with no configured sources. -/
theorem generate_with_no_sources_fails_without_api_call_witness :
    emptySourcesState.savedSettings.sources = [] ∧
    ((handleGeneratePost 0 (.ok (some "hi")) "t" emptySourcesState).apiCalled = false ∧
      (handleGeneratePost 0 (.ok (some "hi")) "t" emptySourcesState).state.error =
        some noSourcesMessage ∧
      (handleGeneratePost 0 (.ok (some "hi")) "t" emptySourcesState).state.history =
        emptySourcesState.history) :=
  ⟨rfl, generate_with_no_sources_fails_without_api_call emptySourcesState 0
    (.ok (some "hi")) "t" rfl⟩

/-- Claim C9: when the API call raises any error, `handleGeneratePost` reports the
fixed generic failure message (independent of the raised error, which therefore
is not contained in it), shows no post, and leaves the history ledger
unchanged. -/
theorem api_error_generic_message_history_unchanged
    (st : AppState) (k : Nat) (e now : String)
    (h : st.savedSettings.sources ≠ []) :
    (handleGeneratePost k (.err e) now st).state.error = some generationErrorMessage ∧
    (handleGeneratePost k (.err e) now st).state.history = st.history ∧
    (handleGeneratePost k (.err e) now st).state.generatedPost = none ∧
    ∀ e2 : String, handleGeneratePost k (.err e2) now st =
      handleGeneratePost k (.err e) now st := by
  have hlen : ¬ st.savedSettings.sources.length = 0 := by simpa using h
  simp [handleGeneratePost, hlen]

/-- Witness for C9 at a concrete state with one configured source. -/
theorem api_error_generic_message_history_unchanged_witness :
    sampleState.savedSettings.sources ≠ [] ∧
    ((handleGeneratePost 0 (.err "boom") "t" sampleState).state.error =
        some generationErrorMessage ∧
      (handleGeneratePost 0 (.err "boom") "t" sampleState).state.history =
        sampleState.history ∧
      (handleGeneratePost 0 (.err "boom") "t" sampleState).state.generatedPost = none ∧
      ∀ e2 : String, handleGeneratePost 0 (.err e2) "t" sampleState =
        handleGeneratePost 0 (.err "boom") "t" sampleState) :=
  ⟨by decide, api_error_generic_message_history_unchanged sampleState 0 "boom" "t"
    (by decide)⟩

/-- Claim C2: when the API returns a non-empty text, `handleGeneratePost` ends in
success: the generated post carries the returned text and a source belonging to
the committed source list, the error is cleared, and exactly one new history
entry with that text, source and timestamp is prepended at index 0 of the
(truncated) history ledger. -/
theorem generate_success_prepends_history
    (st : AppState) (k : Nat) (text now : String)
    (hs : st.savedSettings.sources ≠ []) (ht : text ≠ "") :
    (st.savedSettings.sources.getD (k % st.savedSettings.sources.length) "")
        ∈ st.savedSettings.sources ∧
    (handleGeneratePost k (.ok (some text)) now st).state.generatedPost =
      some { text := text
             source := st.savedSettings.sources.getD
               (k % st.savedSettings.sources.length) "" } ∧
    (handleGeneratePost k (.ok (some text)) now st).state.error = none ∧
    (handleGeneratePost k (.ok (some text)) now st).state.history =
      { text := text
        source := st.savedSettings.sources.getD (k % st.savedSettings.sources.length) ""
        date := now } :: st.history.take 49 := by
  have hlen : 0 < st.savedSettings.sources.length := List.length_pos.mpr hs
  have hk : k % st.savedSettings.sources.length < st.savedSettings.sources.length :=
    Nat.mod_lt _ hlen
  have hmem : (st.savedSettings.sources.getD (k % st.savedSettings.sources.length) "")
      ∈ st.savedSettings.sources := by
    rw [List.getD_eq_getElem?_getD, List.getElem?_eq_getElem hk]
    exact List.getElem_mem hk
  have hlen0 : ¬ st.savedSettings.sources.length = 0 := Nat.pos_iff_ne_zero.mp hlen
  refine ⟨hmem, ?_, ?_, ?_⟩ <;> simp [handleGeneratePost, hlen0, ht]

/-- Witness for C2: one source, the API returns the text Hello with a star
emoji, and the new entry lands at index 0. -/
theorem generate_success_prepends_history_witness :
    sampleState.savedSettings.sources ≠ [] ∧ ("Hello 🌟" : String) ≠ "" ∧
    ((sampleState.savedSettings.sources.getD
        (0 % sampleState.savedSettings.sources.length) "")
        ∈ sampleState.savedSettings.sources ∧
    (handleGeneratePost 0 (.ok (some "Hello 🌟")) "t" sampleState).state.generatedPost =
      some { text := "Hello 🌟"
             source := sampleState.savedSettings.sources.getD
               (0 % sampleState.savedSettings.sources.length) "" } ∧
    (handleGeneratePost 0 (.ok (some "Hello 🌟")) "t" sampleState).state.error = none ∧
    (handleGeneratePost 0 (.ok (some "Hello 🌟")) "t" sampleState).state.history =
      { text := "Hello 🌟"
        source := sampleState.savedSettings.sources.getD
          (0 % sampleState.savedSettings.sources.length) ""
        date := "t" } :: sampleState.history.take 49) :=
  ⟨by decide, by decide,
    generate_success_prepends_history sampleState 0 "Hello 🌟" "t" (by decide) (by decide)⟩

/-- Truncating after appending an already-truncated tail is the same as
truncating the full append. -/
lemma take_append_take {α : Type} (n : Nat) (xs ys : List α) :
    (xs ++ ys.take n).take n = (xs ++ ys).take n := by
  rw [List.take_append_eq_append_take, List.take_append_eq_append_take, List.take_take,
    Nat.min_eq_left (Nat.sub_le n xs.length)]

/-- Folding `prependHistory` over a list of entries from a ledger of at most 50
entries yields the reversed entries in front of the ledger, truncated to 50. -/
lemma applyGenerations_of_le (es : List HistoryEntry) (h : List HistoryEntry)
    (hb : h.length ≤ 50) :
    applyGenerations es h = (es.reverse ++ h).take 50 := by
  induction es generalizing h with
  | nil => simp [applyGenerations, List.take_of_length_le hb]
  | cons e es ih =>
      have hstep : (prependHistory e h).length ≤ 50 := by
        simp [prependHistory]
      calc applyGenerations (e :: es) h
          = applyGenerations es (prependHistory e h) := rfl
        _ = (es.reverse ++ (e :: h).take 50).take 50 := ih _ hstep
        _ = (es.reverse ++ (e :: h)).take 50 := take_append_take 50 _ _
        _ = ((e :: es).reverse ++ h).take 50 := by simp

/-- Folding `prependHistory` over a non-empty list of entries yields the
reversed entries in front of the starting ledger, truncated to 50. -/
lemma applyGenerations_eq (e : HistoryEntry) (es : List HistoryEntry)
    (h : List HistoryEntry) :
    applyGenerations (e :: es) h = ((e :: es).reverse ++ h).take 50 := by
  have hstep : (prependHistory e h).length ≤ 50 := by simp [prependHistory]
  calc applyGenerations (e :: es) h
      = applyGenerations es (prependHistory e h) := rfl
    _ = (es.reverse ++ (e :: h).take 50).take 50 := applyGenerations_of_le _ _ hstep
    _ = (es.reverse ++ (e :: h)).take 50 := take_append_take 50 _ _
    _ = ((e :: es).reverse ++ h).take 50 := by simp

/-- Claim C3: `prependHistory` inserts the new entry at the front and keeps only
the first 50 entries (the tail beyond position 49 is dropped); after at least
50 successful generations the ledger holds exactly the 50 most recent entries,
newest first, whatever the starting ledger was. -/
theorem history_prepend_bounded_fifty (es : List HistoryEntry)
    (h : List HistoryEntry) (hN : 50 ≤ es.length) :
    (∀ (e : HistoryEntry) (acc : List HistoryEntry),
      (prependHistory e acc).head? = some e ∧
      (prependHistory e acc).tail = acc.take 49 ∧
      (prependHistory e acc).length = min 50 (acc.length + 1)) ∧
    (applyGenerations es h).length = 50 ∧
    applyGenerations es h = es.reverse.take 50 := by
  refine ⟨fun e acc => ⟨rfl, rfl, by simp [prependHistory]; omega⟩, ?_, ?_⟩
  · cases es with
    | nil => simp at hN
    | cons e es =>
        simp only [List.length_cons] at hN
        rw [applyGenerations_eq]
        simp only [List.length_take, List.length_append, List.length_reverse,
          List.length_cons]
        omega
  · cases es with
    | nil => simp at hN
    | cons e es =>
        rw [applyGenerations_eq, List.take_append_of_le_length]
        simpa using hN

/-- A concrete history entry for witnesses. -/
def sampleEntry : HistoryEntry :=
  { text := "hello", source := "https://a.example/feed", date := "t" }

/-- Witness for C3 at 50 identical successful generations over an empty
ledger. -/
theorem history_prepend_bounded_fifty_witness :
    50 ≤ (List.replicate 50 sampleEntry).length ∧
    ((∀ (e : HistoryEntry) (acc : List HistoryEntry),
      (prependHistory e acc).head? = some e ∧
      (prependHistory e acc).tail = acc.take 49 ∧
      (prependHistory e acc).length = min 50 (acc.length + 1)) ∧
    (applyGenerations (List.replicate 50 sampleEntry) []).length = 50 ∧
    applyGenerations (List.replicate 50 sampleEntry) [] =
      (List.replicate 50 sampleEntry).reverse.take 50) :=
  ⟨by simp, history_prepend_bounded_fifty (List.replicate 50 sampleEntry) [] (by simp)⟩

/-- A filtered-by-index removal only drops elements: the survivors keep their
relative order. -/
lemma removeSource_sublist (index : Int) (l : List String) :
    List.Sublist (removeSource index l) l := by
  have h1 : List.Sublist (l.enum.filter (fun p => ((p.1 : Int) != index))) l.enum :=
    List.filter_sublist _
  have h2 := h1.map Prod.snd
  simpa [removeSource, List.enum_map_snd] using h2

/-- `addSource` produces a sublist of the old list with the url appended. -/
lemma addSource_sublist_concat (u : String) (l : List String) :
    List.Sublist (addSource u l) (l ++ [u]) := by
  unfold addSource
  split
  · exact List.Sublist.refl _
  · exact List.sublist_append_left _ _

/-- `addSource` preserves freedom from duplicates. -/
lemma addSource_nodup (u : String) (l : List String) (h : l.Nodup) :
    (addSource u l).Nodup := by
  by_cases hc : u ≠ "" ∧ u ∉ l
  · rw [addSource, if_pos hc]
    exact h.append (List.nodup_singleton u)
      (by simpa [List.disjoint_singleton] using hc.2)
  · rw [addSource, if_neg hc]
    exact h

/-- Claim C4: starting from a duplicate-free source list, any sequence of
`addSource` / `removeSource` calls yields a duplicate-free list whose elements
appear in insertion order: the result is a sublist of the starting list
followed by the added urls in call order. -/
theorem source_ops_preserve_nodup_and_order (ops : List SourceOp) (l : List String)
    (h : l.Nodup) :
    (applySourceOps ops l).Nodup ∧
      List.Sublist (applySourceOps ops l) (l ++ addsOf ops) := by
  induction ops generalizing l with
  | nil => simpa [applySourceOps, addsOf] using h
  | cons op ops ih =>
      cases op with
      | add u =>
          obtain ⟨hn, hs⟩ := ih (addSource u l) (addSource_nodup u l h)
          refine ⟨hn, ?_⟩
          have h2 : List.Sublist (applySourceOps (.add u :: ops) l)
              (addSource u l ++ addsOf ops) := hs
          have h3 : List.Sublist (addSource u l ++ addsOf ops)
              ((l ++ [u]) ++ addsOf ops) :=
            (addSource_sublist_concat u l).append_right _
          have h4 := h2.trans h3
          simpa [addsOf, List.append_assoc] using h4
      | remove index =>
          obtain ⟨hn, hs⟩ := ih (removeSource index l)
            ((removeSource_sublist index l).nodup h)
          refine ⟨hn, ?_⟩
          have h2 : List.Sublist (applySourceOps (.remove index :: ops) l)
              (removeSource index l ++ addsOf ops) := hs
          have h3 : List.Sublist (removeSource index l ++ addsOf ops)
              (l ++ addsOf ops) :=
            (removeSource_sublist index l).append_right _
          simpa [addsOf] using h2.trans h3

/-- Witness for C4: an add, a duplicate add, a removal and an out-of-range
removal starting from a one-element list. -/
theorem source_ops_preserve_nodup_and_order_witness :
    (["https://a.example/feed"] : List String).Nodup ∧
    ((applySourceOps [.add "u", .add "u", .remove 0, .remove 5]
        ["https://a.example/feed"]).Nodup ∧
      List.Sublist
        (applySourceOps [.add "u", .add "u", .remove 0, .remove 5]
          ["https://a.example/feed"])
        (["https://a.example/feed"] ++
          addsOf [.add "u", .add "u", .remove 0, .remove 5])) :=
  ⟨by decide, source_ops_preserve_nodup_and_order _ _ (by decide)⟩

/-- `addScheduleTime` preserves freedom from duplicates and sortedness. -/
lemma addScheduleTime_nodup_sorted (t : String) (l : List String)
    (h : l.Nodup) (hs : l.Sorted (· ≤ ·)) :
    (addScheduleTime t l).Nodup ∧ (addScheduleTime t l).Sorted (· ≤ ·) := by
  by_cases hc : t ≠ "" ∧ t ∉ l
  · rw [addScheduleTime, if_pos hc]
    constructor
    · have hconc : (l ++ [t]).Nodup :=
        h.append (List.nodup_singleton t)
          (by simpa [List.disjoint_singleton] using hc.2)
      exact ((List.perm_insertionSort _ _).nodup_iff).mpr hconc
    · exact List.sorted_insertionSort _ _
  · rw [addScheduleTime, if_neg hc]
    exact ⟨h, hs⟩

/-- Claim C5: starting from a duplicate-free, lexicographically sorted
schedule-time list (such as the default), any sequence of `addScheduleTime`
calls yields a list that is sorted ascending and free of duplicates. -/
theorem schedule_adds_sorted_and_nodup (ts : List String) (l : List String)
    (h : l.Nodup) (hs : l.Sorted (· ≤ ·)) :
    (applyScheduleAdds ts l).Nodup ∧ (applyScheduleAdds ts l).Sorted (· ≤ ·) := by
  induction ts generalizing l with
  | nil => exact ⟨h, hs⟩
  | cons t ts ih =>
      obtain ⟨h1, h2⟩ := addScheduleTime_nodup_sorted t l h hs
      exact ih (addScheduleTime t l) h1 h2

/-- Witness for C5: three adds (one a duplicate) over the empty list. -/
theorem schedule_adds_sorted_and_nodup_witness :
    ([] : List String).Nodup ∧ ([] : List String).Sorted (· ≤ ·) ∧
    ((applyScheduleAdds ["12:00", "09:00", "12:00"] []).Nodup ∧
      (applyScheduleAdds ["12:00", "09:00", "12:00"] []).Sorted (· ≤ ·)) :=
  ⟨by simp, by simp, schedule_adds_sorted_and_nodup ["12:00", "09:00", "12:00"] []
    (by simp) (by simp)⟩

/-- Claim C6: `addSource` with the same url twice in succession yields the same
source list as a single call. -/
theorem addSource_idem (u : String) (l : List String) :
    addSource u (addSource u l) = addSource u l := by
  by_cases hc : u ≠ "" ∧ u ∉ l
  · have h1 : addSource u l = l ++ [u] := by rw [addSource, if_pos hc]
    rw [h1]
    simp [addSource]
  · have h1 : addSource u l = l := by rw [addSource, if_neg hc]
    rw [h1]
    exact h1

/-- Claim C7: the dirty flag is structural inequality of draft and committed
settings: it is false exactly when they are equal, any field edit whose result
differs from the committed settings makes it true, and it is false after a save
(commit) and after a reset (discard). -/
theorem dirty_iff_draft_ne_committed (st : AppState) (e : SettingsEdit)
    (hedit : handleSettingsChange e st.settings ≠ st.savedSettings) :
    (areSettingsDirty st.settings st.savedSettings = true ↔
      st.settings ≠ st.savedSettings) ∧
    areSettingsDirty (handleSettingsChange e st.settings) st.savedSettings = true ∧
    areSettingsDirty (handleSaveSettings st).settings
      (handleSaveSettings st).savedSettings = false ∧
    areSettingsDirty (handleResetSettings st).settings
      (handleResetSettings st).savedSettings = false := by
  refine ⟨by simp [areSettingsDirty], by simp [areSettingsDirty, hedit],
    by simp [areSettingsDirty, handleSaveSettings],
    by simp [areSettingsDirty, handleResetSettings]⟩

/-- Witness for C7: editing the persona of a clean state dirties it. -/
theorem dirty_iff_draft_ne_committed_witness :
    handleSettingsChange (.persona "x") sampleState.settings ≠
      sampleState.savedSettings ∧
    ((areSettingsDirty sampleState.settings sampleState.savedSettings = true ↔
      sampleState.settings ≠ sampleState.savedSettings) ∧
    areSettingsDirty (handleSettingsChange (.persona "x") sampleState.settings)
      sampleState.savedSettings = true ∧
    areSettingsDirty (handleSaveSettings sampleState).settings
      (handleSaveSettings sampleState).savedSettings = false ∧
    areSettingsDirty (handleResetSettings sampleState).settings
      (handleResetSettings sampleState).savedSettings = false) :=
  ⟨by decide, dirty_iff_draft_ne_committed sampleState (.persona "x") (by decide)⟩

/-- Claim C8: no draft mutation (field edit, add/remove source, add/remove
schedule time) changes the committed or the persisted settings; a save
(commit) is what replaces both with the draft. -/
theorem draft_ops_do_not_touch_committed (op : DraftOp) (st : AppState) :
    (applyDraftOp op st).savedSettings = st.savedSettings ∧
    (applyDraftOp op st).persistedSettings = st.persistedSettings ∧
    (handleSaveSettings st).savedSettings = st.settings ∧
    (handleSaveSettings st).persistedSettings = st.settings := by
  cases op <;>
    refine ⟨?_, ?_, rfl, rfl⟩ <;>
    simp only [applyDraftOp] <;>
    first
      | rfl
      | (split
         · rfl
         · rfl)

/-- Claim C10: `removeSource` and `removeScheduleTime` with an out-of-range
index leave the list unchanged, and `addSource` / `addScheduleTime` with an
empty or already-present value leave the list unchanged; all four are total
functions that signal no error. -/
theorem failed_precondition_ops_are_noops (index : Int) (l ls : List String)
    (u t : String)
    (hidx : ¬(0 ≤ index ∧ index < (l.length : Int)))
    (hidx2 : ¬(0 ≤ index ∧ index < (ls.length : Int)))
    (hu : u = "" ∨ u ∈ l) (ht : t = "" ∨ t ∈ ls) :
    removeSource index l = l ∧ removeScheduleTime index ls = ls ∧
    addSource u l = l ∧ addScheduleTime t ls = ls := by
  have hrem : ∀ m : List String, ¬(0 ≤ index ∧ index < (m.length : Int)) →
      (m.enum.filter (fun p => ((p.1 : Int) != index))).map Prod.snd = m := by
    intro m hm
    have hfil : m.enum.filter (fun p => ((p.1 : Int) != index)) = m.enum := by
      rw [List.filter_eq_self]
      intro p hp
      have h1 : p.1 < m.length := List.fst_lt_of_mem_enum hp
      have h2 : (p.1 : Int) ≠ index := by
        intro heq
        exact hm ⟨heq ▸ Int.natCast_nonneg p.1, heq ▸ (by exact_mod_cast h1)⟩
      simpa using h2
    rw [hfil, List.enum_map_snd]
  refine ⟨hrem l hidx, hrem ls hidx2, ?_, ?_⟩
  · rw [addSource, if_neg]
    simp only [ne_eq, not_and, not_not]
    intro hne
    rcases hu with h | h
    · exact absurd h hne
    · simp [h]
  · rw [addScheduleTime, if_neg]
    simp only [ne_eq, not_and, not_not]
    intro hne
    rcases ht with h | h
    · exact absurd h hne
    · simp [h]

/-- Witness for C10: index −1 on singleton lists, a duplicate url and a
duplicate time. -/
theorem failed_precondition_ops_are_noops_witness :
    ¬((0 : Int) ≤ -1 ∧ (-1 : Int) < ((["a"] : List String).length : Int)) ∧
    ¬((0 : Int) ≤ -1 ∧ (-1 : Int) < ((["09:00"] : List String).length : Int)) ∧
    ("a" = "" ∨ "a" ∈ (["a"] : List String)) ∧
    ("09:00" = "" ∨ "09:00" ∈ (["09:00"] : List String)) ∧
    (removeSource (-1) ["a"] = ["a"] ∧ removeScheduleTime (-1) ["09:00"] = ["09:00"] ∧
      addSource "a" ["a"] = ["a"] ∧ addScheduleTime "09:00" ["09:00"] = ["09:00"]) :=
  ⟨by decide, by decide, by decide, by decide,
    failed_precondition_ops_are_noops (-1) ["a"] ["09:00"] "a" "09:00"
      (by decide) (by decide) (by decide) (by decide)⟩
